import Mathlib

/-!
Verification of the elton-body-parser middleware (package bodyparser).

The definitions below are a shallow embedding of the Go source of the repository
(body_parser.go, current revision: the one with the Decoder list and the
maxBytesReader bounded reader).  Byte strings are modelled as List Nat,
header names and values as String, request-body slots as Option (List Nat)
with none standing for a Go nil slice, and Go errors as the inductive
GoError below.
-/

namespace BodyParser

/-- Model of Go error values as they appear in this code base: hes.Error
carries a status code, a category, a message and the Exception flag; every
other error (fmt.Errorf, gzip errors, url escape errors) is a plain message. -/
inductive GoError where
  | hes (statusCode : Nat) (category : String) (message : String) (exception : Bool)
  | plain (message : String)
deriving DecidableEq, Repr

/-- Model of the Error() string of an error value.  For a hes.Error the hes
library prints category (when non-empty) and message; a plain error prints
its message. -/
def GoError.errorString : GoError → String
  | .plain m => m
  | .hes _ c m _ =>
    if c = "" then "message=" ++ m else "category=" ++ c ++ ", message=" ++ m

/-- The Exception flag of an error; plain errors have no such flag. -/
def GoError.isException : GoError → Bool
  | .hes _ _ _ e => e
  | .plain _ => false

/-- The bytes of an ASCII string literal; Go strings are byte strings, so
header values and media types are modelled as byte lists. -/
def strBytes (s : String) : List Nat := s.data.map (fun c => c.toNat)

/-- Model of the elton.Context fields the middleware touches: the request
method, the request headers (names as literals, values as byte strings),
the RequestBody slot (none models a Go nil slice), the Committed flag read
by elton.DefaultSkipper, and the raw body stream, modelled as its full
content followed by its terminal condition (none = end of stream, some e =
the stream fails with e after its content). -/
structure Context where
  method : String
  headers : List (String × List Nat)
  requestBody : Option (List Nat)
  committed : Bool
  streamContent : List Nat
  streamErr : Option GoError
deriving DecidableEq, Repr

/-- Model of elton Context.GetRequestHeader: the first header with the given
name, or the empty string. -/
def getHeader (ctx : Context) (k : String) : List Nat :=
  ((ctx.headers.find? (fun p => p.1 = k)).map Prod.snd).getD []

/-- Model of elton Context.SetRequestHeader: an empty value deletes the
header, otherwise every header with the given name is replaced by the
single new value. -/
def setHeader (ctx : Context) (k : String) (v : List Nat) : Context :=
  if v = [] then { ctx with headers := ctx.headers.filter (fun p => p.1 != k) }
  else { ctx with headers := (k, v) :: ctx.headers.filter (fun p => p.1 != k) }

/-- Model of the Decoder struct: a Validate predicate and a Decode function.
Decode receives the context and the current bytes and returns the (possibly
mutated) context, the produced bytes (none models a Go nil slice) and an
optional error, mirroring the Go signature (data []byte, err error) plus the
context mutations done through its methods. -/
structure Decoder where
  validate : Context → Bool
  decode : Context → List Nat → Context × Option (List Nat) × Option GoError

/-- Model of the Config struct.  limit is a Go int (negative values are
representable and meaningful); skipper and contentTypeValidate are nil-able
function fields, modelled with Option. -/
structure Config where
  limit : Int
  decoders : List Decoder
  skipper : Option (Context → Bool)
  contentTypeValidate : Option (Context → Bool)

/-- Model of elton.DefaultSkipper: skip when the context is committed. -/
def defaultSkipper (ctx : Context) : Bool := ctx.committed

/-- ErrCategory of the package. -/
def errCategory : String := "elton-body-parser"

/-- Model of DefaultJSONContentTypeValidate: the Content-Type header starts
with the JSON media type. -/
def defaultJSONContentTypeValidate (ctx : Context) : Bool :=
  (strBytes "application/json").isPrefixOf (getHeader ctx "Content-Type")

/-- Model of DefaultJSONAndFormContentTypeValidate. -/
def defaultJSONAndFormContentTypeValidate (ctx : Context) : Bool :=
  (strBytes "application/json").isPrefixOf (getHeader ctx "Content-Type") ||
  (strBytes "application/x-www-form-urlencoded").isPrefixOf (getHeader ctx "Content-Type")

/-- The first semicolon-delimited field of a header value, as produced by
strings.Split at index 0. -/
def firstField (v : List Nat) : List Nat := v.takeWhile (fun b => b ≠ 59)

/-- validMethods of the package: POST, PATCH, PUT. -/
def validMethods : List String := ["POST", "PATCH", "PUT"]

/-- The sticky error produced by maxBytesReader when the limit is crossed:
fmt.Errorf with the remaining budget at the moment of the overflow. -/
def tooLargeErr (n : Nat) : GoError :=
  .plain ("request body is too large, it should be <= " ++ toString n)

/-- Model of the maxBytesReader state: the remaining budget n and the sticky
error field.  The budget starts from the configured limit, which is positive
whenever the reader is installed, so Nat is faithful to the Go int64. -/
structure MBR where
  n : Nat
  err : Option GoError
deriving DecidableEq, Repr

/-- Model of one maxBytesReader.Read call.  plen is len(p); under models the
underlying reader: given the (possibly capped) buffer size it returns the
bytes actually produced and the error of that call.  The result carries the
returned bytes, the returned error, the new reader state, and whether the
underlying reader was consulted at all. -/
def mbrRead (s : MBR) (plen : Nat) (under : Nat → List Nat × Option GoError) :
    List Nat × Option GoError × MBR × Bool :=
  match s.err with
  | some e => ([], some e, s, false)
  | none =>
    if plen = 0 then ([], none, s, false)
    else
      let cap := if plen > s.n + 1 then s.n + 1 else plen
      let (bs, uerr) := under cap
      if bs.length ≤ s.n then
        (bs, uerr, ⟨s.n - bs.length, uerr⟩, true)
      else
        (bs.take s.n, some (tooLargeErr s.n), ⟨0, some (tooLargeErr s.n)⟩, true)

/-- Model of ioutil.ReadAll over MaxBytesReader(stream, budget): the read
loop requests chunks of 512 bytes (the initial ReadAll buffer size), each Read
capped by the reader to budget + 1; a well-behaved stream yields
min(requested, remaining) bytes per call and then its terminal condition.
Returns the bytes accumulated and the final error (none when the stream
ended normally within budget). -/
def readAllBounded : Nat → List Nat → Option GoError → List Nat × Option GoError
  | _, [], terminal => ([], terminal)
  | budget, b :: rest, terminal =>
    let cap := min 512 (budget + 1)
    let chunk := (b :: rest).take cap
    if chunk.length ≤ budget then
      let r := readAllBounded (budget - chunk.length) ((b :: rest).drop cap) terminal
      (chunk ++ r.1, r.2)
    else
      (chunk.take budget, some (tooLargeErr budget))
termination_by _ content _ => content.length
decreasing_by
  simp only [List.length_drop, List.length_cons]
  omega

/-- Model of ioutil.ReadAll over the raw stream (no bounded reader): all the
content, then the terminal condition of the stream. -/
def readAllRaw (content : List Nat) (terminal : Option GoError) :
    List Nat × Option GoError :=
  (content, terminal)

/-- The effective limit computed at the top of New: the default 50 KiB
unless config.Limit is non-zero. -/
def effectiveLimit (cfg : Config) : Int :=
  if cfg.limit ≠ 0 then cfg.limit else 51200

/-- The skipper actually used: config.Skipper or elton.DefaultSkipper. -/
def skipperOf (cfg : Config) : Context → Bool :=
  cfg.skipper.getD defaultSkipper

/-- The content-type gate actually used: config.ContentTypeValidate or
DefaultJSONContentTypeValidate. -/
def ctvOf (cfg : Config) : Context → Bool :=
  cfg.contentTypeValidate.getD defaultJSONContentTypeValidate

/-- The gating disjunction of the handler: skipper, pre-populated body slot,
content-type gate, then the valid-method check. -/
def gatedOut (cfg : Config) (ctx : Context) : Bool :=
  skipperOf cfg ctx || ctx.requestBody.isSome || !(ctvOf cfg ctx) ||
    !(validMethods.contains ctx.method)

/-- The body read performed by the handler: through MaxBytesReader when the
effective limit is positive, otherwise directly from the raw stream. -/
def readBody (cfg : Config) (ctx : Context) : List Nat × Option GoError :=
  if effectiveLimit cfg > 0 then
    readAllBounded (effectiveLimit cfg).toNat ctx.streamContent ctx.streamErr
  else
    readAllRaw ctx.streamContent ctx.streamErr

/-- The hes.Error the handler builds when ReadAll fails: Exception true,
status 500, the underlying error text, the package category. -/
def readFailError (e : GoError) : GoError :=
  .hes 500 errCategory e.errorString true

/-- The outcome of one handler run: the returned error, the final context,
whether c.Next() was invoked, and whether the body stream was read. -/
structure Outcome where
  err : Option GoError
  ctx : Context
  nextCalled : Bool
  streamRead : Bool
deriving DecidableEq, Repr

/-- Applying a selected decoder, mirroring the tail of the handler: on a
transform error return it without touching the body slot; on success store
the produced bytes in the slot and continue. -/
def applyDecoder (d : Decoder) (ctx1 : Context) (data : List Nat)
    (nextErr : Option GoError) : Outcome :=
  match d.decode ctx1 data with
  | (ctx2, _, some e) => ⟨some e, ctx2, false, true⟩
  | (ctx2, out, none) => ⟨nextErr, { ctx2 with requestBody := out }, true, true⟩

/-! ### The JSON structural decoder (NewJSONDecoder) -/

/-- ASCII whitespace as trimmed by bytes.TrimSpace on ASCII input. -/
def isSpaceByte (b : Nat) : Bool := b = 32 || (9 ≤ b && b ≤ 13)

/-- Model of bytes.TrimSpace: remove leading and trailing whitespace. -/
def trimSpace (l : List Nat) : List Nat :=
  ((l.dropWhile isSpaceByte).reverse.dropWhile isSpaceByte).reverse

/-- The fixed errInvalidJSON value of the package: category, message
"invalid json format", status 400, Exception unset. -/
def errInvalidJSON : GoError := .hes 400 errCategory "invalid json format" false

/-- Validate of NewJSONDecoder: the first semicolon-delimited field of the
Content-Type header equals the JSON media type. -/
def jsonValidate (ctx : Context) : Bool :=
  firstField (getHeader ctx "Content-Type") = strBytes "application/json"

/-- Decode of NewJSONDecoder: trim whitespace; empty input yields nil bytes
with no error; otherwise the first byte must be a left brace (123) closed by
a right brace (125) or a left bracket (91) closed by a right bracket (93),
and any mismatch yields errInvalidJSON. -/
def jsonDecodeFn (ctx : Context) (data : List Nat) :
    Context × Option (List Nat) × Option GoError :=
  let t := trimSpace data
  if t.length = 0 then (ctx, none, none)
  else
    let firstByte := t.headD 0
    let lastByte := t.getLastD 0
    if firstByte != 123 && firstByte != 91 then (ctx, none, some errInvalidJSON)
    else if firstByte = 123 && lastByte != 125 then (ctx, none, some errInvalidJSON)
    else if firstByte = 91 && lastByte != 93 then (ctx, none, some errInvalidJSON)
    else (ctx, some t, none)

/-- The decoder built by NewJSONDecoder. -/
def jsonDecoder : Decoder := ⟨jsonValidate, jsonDecodeFn⟩

/-! ### The gzip decoder (NewGzipDecoder, doGunzip)

The compress/gzip library is external to the repository; it is modelled
here on the fragment the middleware exercises: RFC 1952 members whose
DEFLATE payload consists of stored (uncompressed) blocks and whose header
carries no optional fields.  The model compressor emits exactly such
members, and the model reader checks the 10-byte header, the stored-block
structure, the CRC32 and the length trailer, failing on anything else
(the concrete Go error texts for data corruption are collapsed to fixed
messages since no claim depends on them). -/

/-- One round of the reflected CRC-32 (IEEE polynomial 0xEDB88320). -/
def crc32Round (c : Nat) : Nat :=
  if c % 2 = 1 then (c / 2) ^^^ 0xEDB88320 else c / 2

/-- Fold one byte into a CRC-32 accumulator. -/
def crc32Byte (c b : Nat) : Nat := crc32Round^[8] (c ^^^ (b % 256))

/-- CRC-32 (IEEE) of a byte list. -/
def crc32 (data : List Nat) : Nat :=
  (data.foldl crc32Byte 0xFFFFFFFF) ^^^ 0xFFFFFFFF

/-- A 16-bit little-endian word as two bytes. -/
def word16 (n : Nat) : List Nat := [n % 256, n / 256 % 256]

/-- A 32-bit little-endian word as four bytes. -/
def word32 (n : Nat) : List Nat :=
  [n % 256, n / 256 % 256, n / 65536 % 256, n / 16777216 % 256]

/-- DEFLATE payload made of stored blocks: each block is a one-byte block
header (1 marks the final block), LEN and NLEN = 65535 - LEN as 16-bit
little-endian words, then LEN raw bytes; at most 65535 bytes per block. -/
def deflateStored (data : List Nat) : List Nat :=
  if data.length ≤ 65535 then
    1 :: (word16 data.length ++ (word16 (65535 - data.length) ++ data))
  else
    0 :: (word16 65535 ++ (word16 0 ++
      (data.take 65535 ++ deflateStored (data.drop 65535))))
termination_by data.length
decreasing_by
  simp only [List.length_drop]
  omega

/-- Inverse of the stored-block structure: decode the blocks, returning the
decoded bytes and the leftover input after the final block, or none on any
structural violation. -/
def inflate : List Nat → Option (List Nat × List Nat)
  | b :: l0 :: l1 :: n0 :: n1 :: rest =>
    if n0 + 256 * n1 = 65535 - (l0 + 256 * l1) ∧ l0 + 256 * l1 ≤ rest.length then
      if b = 1 then
        some (rest.take (l0 + 256 * l1), rest.drop (l0 + 256 * l1))
      else if b = 0 then
        (inflate (rest.drop (l0 + 256 * l1))).map
          (fun r => (rest.take (l0 + 256 * l1) ++ r.1, r.2))
      else none
    else none
  | _ => none
termination_by l => l.length
decreasing_by
  simp only [List.length_drop, List.length_cons]
  omega

/-- The gzip member produced by the model compressor: the 10-byte header
(magic 31 139, method 8, empty flags, zero mtime, zero xfl, unknown OS),
the stored-block payload, then CRC32 and length-mod-2^32 trailers. -/
def gzipCompress (data : List Nat) : List Nat :=
  [31, 139, 8, 0, 0, 0, 0, 0, 0, 255] ++
    (deflateStored data ++ (word32 (crc32 data) ++ word32 (data.length % 4294967296)))

/-- Model of doGunzip (gzip.NewReader plus ReadAll): an input shorter than
the 10-byte header fails with an unexpected-EOF error; a wrong magic or
method fails with the invalid-header error; otherwise the payload is
inflated and the trailer checked. -/
def gunzip (buf : List Nat) : Option (List Nat) × Option GoError :=
  match buf with
  | 31 :: 139 :: 8 :: 0 :: _ :: _ :: _ :: _ :: _ :: _ :: rest =>
    match inflate rest with
    | some (data, leftover) =>
      if leftover = word32 (crc32 data) ++ word32 (data.length % 4294967296)
      then (some data, none)
      else (none, some (.plain "gzip: invalid checksum"))
    | none => (none, some (.plain "unexpected EOF"))
  | _ =>
    if buf.length < 10 then (none, some (.plain "unexpected EOF"))
    else (none, some (.plain "gzip: invalid header"))

/-- Validate of NewGzipDecoder: the Content-Encoding header equals gzip. -/
def gzipValidate (ctx : Context) : Bool :=
  getHeader ctx "Content-Encoding" = strBytes "gzip"

/-- Decode of NewGzipDecoder: clear the Content-Encoding request header,
then gunzip the bytes. -/
def gzipDecodeFn (ctx : Context) (data : List Nat) :
    Context × Option (List Nat) × Option GoError :=
  let ctx' := setHeader ctx "Content-Encoding" []
  let r := gunzip data
  (ctx', r.1, r.2)

/-- The decoder built by NewGzipDecoder. -/
def gzipDecoder : Decoder := ⟨gzipValidate, gzipDecodeFn⟩

/-! ### The URL-encoded-to-JSON decoder (NewFormURLEncodedDecoder)

url.ParseQuery is external to the repository; it is modelled on its
documented behaviour (Go of the era of the repository): split the query on
ampersand and semicolon, skip empty segments, split each segment at the
first equals sign, percent-decode key and value (plus decodes to space),
skip a pair whose decoding fails while remembering the first such error,
and collect the values of each key in encounter order.  The Go Values type is a
map whose iteration order is unspecified; the model keeps keys in
first-seen order (no claim depends on the key order, only on the per-key
rendering).  The concrete escape-error text (which embeds the offending
escape) is collapsed to a fixed message since no claim depends on it. -/

/-- Is the byte an ASCII hex digit. -/
def isHexDigit (b : Nat) : Bool :=
  (48 ≤ b && b ≤ 57) || (65 ≤ b && b ≤ 70) || (97 ≤ b && b ≤ 102)

/-- Value of an ASCII hex digit. -/
def hexVal (b : Nat) : Nat :=
  if b ≤ 57 then b - 48 else if b ≤ 70 then b - 55 else b - 87

/-- Model of url.QueryUnescape on bytes: percent escapes must be followed
by two hex digits, plus (43) decodes to space (32); none on a bad escape. -/
def queryUnescape : List Nat → Option (List Nat)
  | [] => some []
  | 37 :: a :: b :: rest =>
    if isHexDigit a && isHexDigit b then
      (queryUnescape rest).map (fun r => (16 * hexVal a + hexVal b) :: r)
    else none
  | 37 :: _ => none
  | 43 :: rest => (queryUnescape rest).map (fun r => 32 :: r)
  | c :: rest => (queryUnescape rest).map (fun r => c :: r)

/-- The error url.ParseQuery reports for a bad percent escape. -/
def escapeErr : GoError := .plain "invalid URL escape"

/-- Split a segment at its first equals sign (61); a segment without one
has an empty value. -/
def splitKV : List Nat → List Nat × List Nat
  | [] => ([], [])
  | 61 :: rest => ([], rest)
  | c :: rest => let r := splitKV rest; (c :: r.1, r.2)

/-- Append a value to the list of its key, keeping keys in first-seen order. -/
def addValue (m : List (List Nat × List (List Nat))) (k v : List Nat) :
    List (List Nat × List (List Nat)) :=
  match m with
  | [] => [(k, [v])]
  | (k', vs) :: rest =>
    if k' = k then (k', vs ++ [v]) :: rest else (k', vs) :: addValue rest k v

/-- Model of url.ParseQuery: returns the collected values and the first
error encountered (pairs with a bad escape are skipped, parsing goes on). -/
def parseQuery (q : List Nat) : List (List Nat × List (List Nat)) × Option GoError :=
  let segments := (q.splitOnP (fun b => b = 38 || b = 59)).filter (fun s => s ≠ [])
  segments.foldl
    (fun acc seg =>
      let kv := splitKV seg
      match queryUnescape kv.1 with
      | none => (acc.1, acc.2.orElse (fun _ => some escapeErr))
      | some k =>
        match queryUnescape kv.2 with
        | none => (acc.1, acc.2.orElse (fun _ => some escapeErr))
        | some v => (addValue acc.1 k v, acc.2))
    ([], none)

/-- Wrap a byte list in JSON double quotes (34). -/
def quoteBytes (s : List Nat) : List Nat := 34 :: (s ++ [34])

/-- Join byte lists with commas (44), as strings.Join with a comma. -/
def joinComma (l : List (List Nat)) : List Nat := List.intercalate [44] l

/-- The fragment one key contributes to the emitted JSON object: a key with fewer than
two values renders as a JSON string of its first value, otherwise as a
JSON array of its values as strings. -/
def renderPair (k : List Nat) (vs : List (List Nat)) : List Nat :=
  if vs.length < 2 then
    quoteBytes k ++ (58 :: quoteBytes (vs.headD []))
  else
    quoteBytes k ++ (58 :: 91 :: (joinComma (vs.map quoteBytes) ++ [93]))

/-- The emitted JSON object text: the fragments joined with commas between
braces (123, 125). -/
def renderValues (m : List (List Nat × List (List Nat))) : List Nat :=
  123 :: (joinComma (m.map (fun kv => renderPair kv.1 kv.2)) ++ [125])

/-- Model of hes.Wrap on a non-hes error: a hes.Error with the default 400
status, empty category and the text of the wrapped error. -/
def hesWrap (e : GoError) : GoError := .hes 400 "" e.errorString false

/-- Decode of NewFormURLEncodedDecoder: parse the query; on a parse error
return hes.Wrap of it with the Exception flag set; otherwise emit the JSON
object text. -/
def formDecodeFn (ctx : Context) (data : List Nat) :
    Context × Option (List Nat) × Option GoError :=
  match parseQuery data with
  | (_, some e) =>
    (ctx, none, some (.hes 400 "" e.errorString true))
  | (vs, none) => (ctx, some (renderValues vs), none)

/-- Validate of NewFormURLEncodedDecoder: the first semicolon-delimited
field of the Content-Type header equals the form media type. -/
def formValidate (ctx : Context) : Bool :=
  firstField (getHeader ctx "Content-Type") = strBytes "application/x-www-form-urlencoded"

/-- The decoder built by NewFormURLEncodedDecoder. -/
def formURLEncodedDecoder : Decoder := ⟨formValidate, formDecodeFn⟩

/-- Model of the handler returned by New (body_parser.go, Decoder-based
revision): gate, read the body through the (possibly bounded) reader, wrap a
read failure as an exceptional 500, store the raw bytes, select the first
decoder whose Validate matches, apply it, and call the continuation.
nextErr is whatever the continuation itself returns. -/
def runHandler (cfg : Config) (ctx : Context) (nextErr : Option GoError) : Outcome :=
  if gatedOut cfg ctx then ⟨nextErr, ctx, true, false⟩
  else
    match readBody cfg ctx with
    | (_, some e) => ⟨some (readFailError e), ctx, false, true⟩
    | (data, none) =>
      let ctx1 := { ctx with requestBody := some data }
      match cfg.decoders.find? (fun d => d.validate ctx1) with
      | none => ⟨nextErr, ctx1, true, true⟩
      | some d => applyDecoder d ctx1 data nextErr

/-! ### Concrete fixtures used by witnesses and counterexamples -/

/-- The configuration of the body-over-limit test of the repository:
Limit 1, everything else zero. -/
def limitOneConfig : Config := ⟨1, [], none, none⟩

/-- A POST request with JSON content type and the three-byte body abc. -/
def abcJSONContext : Context :=
  ⟨"POST", [("Content-Type", strBytes "application/json")], none, false,
   strBytes "abc", none⟩

/-- A POST request with JSON content type whose body stream fails
immediately with a plain error, as in the read-body-fail test. -/
def errStreamContext : Context :=
  ⟨"POST", [("Content-Type", strBytes "application/json")], none, false,
   [], some (.plain "abc")⟩

/-- A configuration with limit 0, i.e. the Limit field left at its zero
value. -/
def zeroLimitConfig : Config := ⟨0, [], none, none⟩

/-- A POST request with JSON content type and a body one byte over the
default 50 KiB ceiling. -/
def bigBodyContext : Context :=
  ⟨"POST", [("Content-Type", strBytes "application/json")], none, false,
   List.replicate 51201 97, none⟩

/-- A GET request with JSON content type and a non-empty body stream. -/
def getMethodContext : Context :=
  ⟨"GET", [("Content-Type", strBytes "application/json")], none, false,
   strBytes "abc", none⟩

/-- A POST request with JSON content type and the four-byte body abcd. -/
def abcdJSONContext : Context :=
  ⟨"POST", [("Content-Type", strBytes "application/json")], none, false,
   strBytes "abcd", none⟩

/-! ### Supporting lemmas -/

/-- A body strictly longer than the budget always drives the bounded
read-to-completion loop into the sticky overflow error. -/
theorem readAllBounded_overflow :
    ∀ (fuel : Nat) (content : List Nat) (budget : Nat) (terminal : Option GoError),
      content.length ≤ fuel → budget < content.length →
      ((readAllBounded budget content terminal).2).isSome = true := by
  intro fuel
  induction fuel with
  | zero =>
    intro content budget terminal hf hb
    interval_cases hc : content.length
    omega
  | succ n ih =>
    intro content budget terminal hf hb
    match content with
    | [] => simp at hb
    | b :: rest =>
      rw [readAllBounded]
      by_cases h : (List.take (min 512 (budget + 1)) (b :: rest)).length ≤ budget
      · rw [if_pos h]
        apply ih
        · simp only [List.length_drop, List.length_cons] at *
          omega
        · simp only [List.length_take, List.length_cons] at *
          simp only [List.length_drop, List.length_cons]
          omega
      · rw [if_neg h]
        simp

/-- Unfolding of the handler when gating passes and the read fails: the
read error is wrapped as the exceptional classification and the context is
untouched. -/
theorem runHandler_read_err (cfg : Config) (ctx : Context) (nextErr : Option GoError)
    (data : List Nat) (e : GoError) (hgate : gatedOut cfg ctx = false)
    (hread : readBody cfg ctx = (data, some e)) :
    runHandler cfg ctx nextErr = ⟨some (readFailError e), ctx, false, true⟩ := by
  unfold runHandler
  rw [if_neg (by simp [hgate]), hread]

/-- Unfolding of the handler when gating passes and the read succeeds: the
raw bytes are stored and the first matching decoder (if any) is applied. -/
theorem runHandler_read_ok (cfg : Config) (ctx : Context) (nextErr : Option GoError)
    (data : List Nat) (hgate : gatedOut cfg ctx = false)
    (hread : readBody cfg ctx = (data, none)) :
    runHandler cfg ctx nextErr =
      match cfg.decoders.find?
          (fun d => d.validate { ctx with requestBody := some data }) with
      | none => ⟨nextErr, { ctx with requestBody := some data }, true, true⟩
      | some d => applyDecoder d { ctx with requestBody := some data } data nextErr := by
  unfold runHandler
  rw [if_neg (by simp [hgate]), hread]

/-- Unfolding of the handler when no registered decoder matches: the raw
bytes reach the continuation unchanged in the body slot. -/
theorem runHandler_decoder_miss (cfg : Config) (ctx : Context)
    (nextErr : Option GoError) (data : List Nat) (hgate : gatedOut cfg ctx = false)
    (hread : readBody cfg ctx = (data, none))
    (hfind : cfg.decoders.find?
      (fun d => d.validate { ctx with requestBody := some data }) = none) :
    runHandler cfg ctx nextErr =
      ⟨nextErr, { ctx with requestBody := some data }, true, true⟩ := by
  rw [runHandler_read_ok cfg ctx nextErr data hgate hread, hfind]

/-- Unfolding of the handler when decoder selection finds a first match:
the run is exactly the application of that decoder. -/
theorem runHandler_decoder_hit (cfg : Config) (ctx : Context)
    (nextErr : Option GoError) (data : List Nat) (d : Decoder)
    (hgate : gatedOut cfg ctx = false)
    (hread : readBody cfg ctx = (data, none))
    (hfind : cfg.decoders.find?
      (fun d' => d'.validate { ctx with requestBody := some data }) = some d) :
    runHandler cfg ctx nextErr =
      applyDecoder d { ctx with requestBody := some data } data nextErr := by
  rw [runHandler_read_ok cfg ctx nextErr data hgate hread, hfind]

/-! ### Claim theorems -/

/-- C1: evaluating the pipeline at the over-limit input of the test suite
(limit 1, POST with JSON content type, three-byte body abc) shows that the
code classifies the size overflow as an exceptional status-500 error whose
message reports the remaining budget and not the observed byte count — the
very same classification a plain stream read failure receives — refuting
the claimed non-exceptional 400-equivalent error stating the observed size
and distinct from read failures. -/
theorem c1_limit_overflow_misclassified :
    runHandler limitOneConfig abcJSONContext none =
      ⟨some (.hes 500 errCategory "request body is too large, it should be <= 1" true),
       abcJSONContext, false, true⟩ ∧
    (runHandler limitOneConfig abcJSONContext none).err ≠
      some (.hes 400 errCategory "request body is 3 bytes, it should be <= 1" false) ∧
    runHandler limitOneConfig errStreamContext none =
      ⟨some (.hes 500 errCategory "abc" true), errStreamContext, false, true⟩ := by
  refine ⟨?_, ?_, ?_⟩ <;>
    (first
      | (simp [runHandler, gatedOut, skipperOf, ctvOf, defaultSkipper,
          defaultJSONContentTypeValidate, getHeader, strBytes, validMethods,
          readBody, effectiveLimit, readAllBounded, readAllRaw, readFailError,
          tooLargeErr, errCategory, GoError.errorString, limitOneConfig,
          abcJSONContext, errStreamContext]
         <;> decide))

/-- C2 counterexample: with the limit configured to 0, size enforcement is
not disabled — a body one byte over 50 KiB makes the pipeline fail and the
continuation is never reached, refuting the claim that a 0 limit admits
bodies of any length. -/
theorem c2_counterexample_zero_limit_still_enforced :
    (runHandler zeroLimitConfig bigBodyContext none).err.isSome = true ∧
    (runHandler zeroLimitConfig bigBodyContext none).nextCalled = false ∧
    (runHandler zeroLimitConfig bigBodyContext none).err.map GoError.isException =
      some true := by
  have hb := readAllBounded_overflow 51201 (List.replicate 51201 97) 51200 none
    (by rw [List.length_replicate]) (by rw [List.length_replicate]; norm_num)
  have hread : readBody zeroLimitConfig bigBodyContext =
      readAllBounded 51200 (List.replicate 51201 97) none := by
    unfold readBody effectiveLimit zeroLimitConfig bigBodyContext
    norm_num
    congr 1
  rcases hr : readAllBounded 51200 (List.replicate 51201 97) none with ⟨dat, derr⟩
  rw [hr] at hb hread
  simp only [Option.isSome_iff_exists] at hb
  obtain ⟨e, he⟩ := hb
  subst he
  have hrun := runHandler_read_err zeroLimitConfig bigBodyContext none dat e
    (by decide) hread
  rw [hrun]
  simp [readFailError, GoError.isException]

/-- C2 (amended): a limit of 0 is indistinguishable from leaving the limit
unset — the default 50 KiB (51200 byte) ceiling applies and the bounded
reader is installed over the stream — while a negative limit is what
disables size enforcement entirely: the raw stream is read with no bounded
reader, so no body of any length can produce a size error. -/
theorem c2_zero_limit_defaults_negative_disables (ds : List Decoder)
    (sk ctv : Option (Context → Bool)) :
    effectiveLimit ⟨0, ds, sk, ctv⟩ = 51200 ∧
    (∀ ctx, readBody ⟨0, ds, sk, ctv⟩ ctx =
      readAllBounded 51200 ctx.streamContent ctx.streamErr) ∧
    (∀ cfg : Config, cfg.limit < 0 →
      ∀ ctx, readBody cfg ctx = (ctx.streamContent, ctx.streamErr)) := by
  refine ⟨rfl, fun ctx => rfl, ?_⟩
  intro cfg hneg ctx
  have h1 : effectiveLimit cfg = cfg.limit := by
    unfold effectiveLimit
    rw [if_pos (by omega)]
  unfold readBody
  rw [h1, if_neg (by omega)]
  rfl

/-- C2 witness: with limit 0 the effective ceiling is 51200 and the bounded
reader is used, while a config with limit -1 reads the abc body raw. -/
theorem c2_witness :
    effectiveLimit ⟨0, [], none, none⟩ = 51200 ∧
    readBody ⟨(-1 : Int), [], none, none⟩ abcJSONContext =
      (strBytes "abc", none) :=
  ⟨(c2_zero_limit_defaults_negative_disables [] none none).1,
   (c2_zero_limit_defaults_negative_disables [] none none).2.2
     ⟨(-1 : Int), [], none, none⟩ (by norm_num) abcJSONContext⟩

/-- C3: when gating passes, any failure aborts the pipeline: a read failure
returns the wrapped exceptional error with the continuation never invoked
and the body slot untouched, and a decoder transform failure returns the
transform error with the continuation never invoked and the context exactly
as the transform left it — the (possibly partial) transform output is
discarded, never stored into the body slot. -/
theorem c3_failure_aborts_pipeline (cfg : Config) (ctx : Context)
    (nextErr : Option GoError) (hgate : gatedOut cfg ctx = false) :
    (∀ data e, readBody cfg ctx = (data, some e) →
      runHandler cfg ctx nextErr = ⟨some (readFailError e), ctx, false, true⟩) ∧
    (∀ data d ctx2 out e, readBody cfg ctx = (data, none) →
      cfg.decoders.find?
        (fun d' => d'.validate { ctx with requestBody := some data }) = some d →
      d.decode { ctx with requestBody := some data } data = (ctx2, out, some e) →
      runHandler cfg ctx nextErr = ⟨some e, ctx2, false, true⟩) := by
  constructor
  · intro data e hread
    exact runHandler_read_err cfg ctx nextErr data e hgate hread
  · intro data d ctx2 out e hread hfind hdec
    rw [runHandler_decoder_hit cfg ctx nextErr data d hgate hread hfind]
    unfold applyDecoder
    rw [hdec]

/-- C3 witness: the JSON decoder rejects the body abcd; the pipeline
returns the invalid-json error, never calls the continuation, and the body
slot holds the raw read bytes, not any decode output. -/
theorem c3_witness :
    runHandler ⟨0, [jsonDecoder], none, none⟩ abcdJSONContext none =
      ⟨some errInvalidJSON,
       { abcdJSONContext with requestBody := some (strBytes "abcd") },
       false, true⟩ :=
  (c3_failure_aborts_pipeline ⟨0, [jsonDecoder], none, none⟩ abcdJSONContext none
      (by decide)).2 (strBytes "abcd") jsonDecoder
    { abcdJSONContext with requestBody := some (strBytes "abcd") } none errInvalidJSON
    (by simp [readBody, effectiveLimit, abcdJSONContext, readAllBounded, strBytes])
    rfl rfl

/-- C4: decoder selection scans the registered sequence in order and applies
exactly the first decoder whose predicate matches, ignoring all later
decoders; when no predicate matches, the post-read bytes reach the
continuation unchanged in the body slot. -/
theorem c4_first_matching_decoder_only (cfg : Config) (ctx : Context)
    (nextErr : Option GoError) (hgate : gatedOut cfg ctx = false)
    (data : List Nat) (hread : readBody cfg ctx = (data, none)) :
    ((∀ d ∈ cfg.decoders,
        d.validate { ctx with requestBody := some data } = false) →
      runHandler cfg ctx nextErr =
        ⟨nextErr, { ctx with requestBody := some data }, true, true⟩) ∧
    (∀ pre d post, cfg.decoders = pre ++ d :: post →
      (∀ d' ∈ pre, d'.validate { ctx with requestBody := some data } = false) →
      d.validate { ctx with requestBody := some data } = true →
      runHandler cfg ctx nextErr =
        applyDecoder d { ctx with requestBody := some data } data nextErr) := by
  constructor
  · intro hnone
    exact runHandler_decoder_miss cfg ctx nextErr data hgate hread
      (List.find?_eq_none.mpr (by intro x hx; simp [hnone x hx]))
  · intro pre d post hdecs hpre hval
    have hfind : cfg.decoders.find?
        (fun d' => d'.validate { ctx with requestBody := some data }) = some d := by
      rw [hdecs, List.find?_append,
        List.find?_eq_none.mpr (by intro x hx; simp [hpre x hx]),
        @List.find?_cons_of_pos Decoder
          (fun d' => d'.validate { ctx with requestBody := some data }) d post hval]
      rfl
    exact runHandler_decoder_hit cfg ctx nextErr data d hgate hread hfind

/-- C4 witness: with the JSON decoder registered before an always-matching
decoder, only the JSON decoder fires on a JSON request even though both
predicates match. -/
theorem c4_witness :
    runHandler ⟨0, [jsonDecoder, ⟨fun _ => true, fun c d => (c, some (d ++ d), none)⟩],
        none, none⟩ abcJSONContext none =
      applyDecoder jsonDecoder
        { abcJSONContext with requestBody := some (strBytes "abc") }
        (strBytes "abc") none :=
  (c4_first_matching_decoder_only
      ⟨0, [jsonDecoder, ⟨fun _ => true, fun c d => (c, some (d ++ d), none)⟩], none, none⟩
      abcJSONContext none (by decide) (strBytes "abc")
      (by simp [readBody, effectiveLimit, abcJSONContext, readAllBounded, strBytes])).2
    [] jsonDecoder [⟨fun _ => true, fun c d => (c, some (d ++ d), none)⟩]
    rfl (by simp) (by decide)

/-- C7: on any query that parses, the URL-encoded transform emits the JSON
object text in which every single-valued key renders as a JSON string and
every key with two or more values renders as a JSON array of strings — as
witnessed concretely on a=1&b=2 (two string-valued keys) and type=1&type=2
(a two-element array) — while a malformed query fails with a wrapped error
whose Exception flag is set. -/
theorem c7_urlencoded_to_json (ctx : Context) (data : List Nat) :
    (∀ vs, parseQuery data = (vs, none) →
      formDecodeFn ctx data = (ctx, some (renderValues vs), none) ∧
      ∀ kv ∈ vs,
        (kv.2.length = 1 →
          renderPair kv.1 kv.2 = quoteBytes kv.1 ++ (58 :: quoteBytes (kv.2.headD []))) ∧
        (2 ≤ kv.2.length →
          renderPair kv.1 kv.2 =
            quoteBytes kv.1 ++ (58 :: 91 :: (joinComma (kv.2.map quoteBytes) ++ [93])))) ∧
    (∀ vs e, parseQuery data = (vs, some e) →
      formDecodeFn ctx data = (ctx, none, some (.hes 400 "" e.errorString true)) ∧
      (GoError.hes 400 "" e.errorString true).isException = true) ∧
    parseQuery (strBytes "a=1&b=2") =
      ([(strBytes "a", [strBytes "1"]), (strBytes "b", [strBytes "2"])], none) ∧
    parseQuery (strBytes "type=1&type=2") =
      ([(strBytes "type", [strBytes "1", strBytes "2"])], none) ∧
    renderValues [(strBytes "type", [strBytes "1", strBytes "2"])] =
      [123, 34, 116, 121, 112, 101, 34, 58, 91, 34, 49, 34, 44, 34, 50, 34, 93, 125] := by
  refine ⟨?_, ?_, by decide, by decide, by decide⟩
  · intro vs hvs
    constructor
    · unfold formDecodeFn
      rw [hvs]
    · intro kv hkv
      constructor
      · intro h1
        unfold renderPair
        rw [if_pos (by omega)]
      · intro h2
        unfold renderPair
        rw [if_neg (by omega)]
  · intro vs e hvs
    constructor
    · unfold formDecodeFn
      rw [hvs]
    · rfl

/-- C7 witness: the query a=1&b=2 parses into two single-valued keys and the
transform emits the rendered JSON object with no error. -/
theorem c7_witness :
    formDecodeFn abcJSONContext (strBytes "a=1&b=2") =
      (abcJSONContext,
       some (renderValues [(strBytes "a", [strBytes "1"]), (strBytes "b", [strBytes "2"])]),
       none) :=
  ((c7_urlencoded_to_json abcJSONContext (strBytes "a=1&b=2")).1
    [(strBytes "a", [strBytes "1"]), (strBytes "b", [strBytes "2"])] (by decide)).1

/-- Reading a 16-bit little-endian word back gives the encoded number. -/
theorem word16_decode (n : Nat) (h : n ≤ 65535) :
    n % 256 + 256 * (n / 256 % 256) = n := by
  have h2 : n / 256 < 256 := by omega
  rw [Nat.mod_eq_of_lt h2, Nat.mod_add_div]

/-- Inflating a final stored block yields its payload and the bytes after
the block. -/
theorem inflate_final_block (B t : List Nat) (h : B.length ≤ 65535) :
    inflate (1 :: (word16 B.length ++ (word16 (65535 - B.length) ++ B)) ++ t) =
      some (B, t) := by
  simp only [word16, List.cons_append, List.append_assoc, List.nil_append]
  rw [inflate]
  rw [if_pos ⟨by rw [word16_decode _ h, word16_decode _ (by omega)], by
    rw [word16_decode _ h]; simp⟩]
  rw [if_pos rfl]
  rw [word16_decode _ h]
  rw [List.take_left, List.drop_left]

/-- Inflation inverts the stored-block compressor, whatever bytes trail the
final block. -/
theorem inflate_deflate_aux :
    ∀ (fuel : Nat) (B t : List Nat), B.length ≤ fuel →
      inflate (deflateStored B ++ t) = some (B, t) := by
  intro fuel
  induction fuel with
  | zero =>
    intro B t hf
    have hB : B.length ≤ 65535 := by omega
    rw [deflateStored, if_pos hB]
    exact inflate_final_block B t hB
  | succ n ih =>
    intro B t hf
    by_cases h : B.length ≤ 65535
    · rw [deflateStored, if_pos h]
      exact inflate_final_block B t h
    · rw [deflateStored, if_neg h]
      have htake : (B.take 65535).length = 65535 := by
        rw [List.length_take]
        omega
      simp only [word16, List.cons_append, List.append_assoc, List.nil_append]
      rw [inflate]
      norm_num
      constructor
      · rw [Nat.min_eq_left (by omega)]
        omega
      · refine ⟨B.drop 65535, ?_, ?_⟩
        · nth_rewrite 1 [← htake]
          rw [List.drop_left]
          exact ih (B.drop 65535) t (by simp only [List.length_drop]; omega)
        · nth_rewrite 1 [← htake]
          rw [List.take_left]
          exact List.take_append_drop 65535 B

/-- Reduction of the gzip reader once the 10-byte header has matched. -/
theorem gunzip_header (a b c d e f : Nat) (rest : List Nat) :
    gunzip (31 :: 139 :: 8 :: 0 :: a :: b :: c :: d :: e :: f :: rest) =
      match inflate rest with
      | some (data, leftover) =>
        if leftover = word32 (crc32 data) ++ word32 (data.length % 4294967296)
        then (some data, none)
        else (none, some (.plain "gzip: invalid checksum"))
      | none => (none, some (.plain "unexpected EOF")) := rfl

/-- The model gzip codec round-trips every byte string. -/
theorem gunzip_gzipCompress (B : List Nat) : gunzip (gzipCompress B) = (some B, none) := by
  have h1 : gzipCompress B = 31 :: 139 :: 8 :: 0 :: 0 :: 0 :: 0 :: 0 :: 0 :: 255 ::
      (deflateStored B ++ (word32 (crc32 B) ++ word32 (B.length % 4294967296))) := by
    simp [gzipCompress]
  rw [h1, gunzip_header,
    inflate_deflate_aux B.length B (word32 (crc32 B) ++ word32 (B.length % 4294967296))
      (Nat.le_refl _)]
  simp

/-- Any input shorter than the 10-byte gzip header is rejected. -/
theorem gunzip_short (buf : List Nat) (h : buf.length < 10) :
    gunzip buf = (none, some (.plain "unexpected EOF")) := by
  unfold gunzip
  split
  · exfalso
    simp only [List.length_cons] at h
    omega
  · rw [if_pos h]

/-- C8: gzip-compressing any byte string B and applying the gzip transform
returns exactly B with the Content-Encoding request header cleared as the
side effect, while applying the transform to fewer bytes than the minimal
10-byte gzip header fails with a transform error (header still cleared). -/
theorem c8_gzip_roundtrip (B : List Nat) (ctx : Context) (buf : List Nat) :
    gzipDecodeFn ctx (gzipCompress B) =
      (setHeader ctx "Content-Encoding" [], some B, none) ∧
    (buf.length < 10 →
      gzipDecodeFn ctx buf =
        (setHeader ctx "Content-Encoding" [], none, some (.plain "unexpected EOF"))) := by
  constructor
  · unfold gzipDecodeFn
    rw [gunzip_gzipCompress]
  · intro h
    unfold gzipDecodeFn
    rw [gunzip_short buf h]

/-- C8 witness: the two-byte body hi round-trips through the model gzip
codec, and the two-byte fragment of a gzip magic number is rejected. -/
theorem c8_witness :
    gzipDecodeFn abcJSONContext (gzipCompress (strBytes "hi")) =
      (setHeader abcJSONContext "Content-Encoding" [], some (strBytes "hi"), none) ∧
    gzipDecodeFn abcJSONContext [31, 139] =
      (setHeader abcJSONContext "Content-Encoding" [], none,
       some (.plain "unexpected EOF")) :=
  ⟨(c8_gzip_roundtrip (strBytes "hi") abcJSONContext [31, 139]).1,
   (c8_gzip_roundtrip (strBytes "hi") abcJSONContext [31, 139]).2 (by decide)⟩

/-- C9: whenever any gating condition holds — the skipper fires, the body
slot is populated, the content-type gate rejects, or the method is outside
POST, PATCH, PUT — the handler performs no stream read, leaves the context
(body slot and headers included) unchanged, and immediately invokes the
continuation, propagating its result. -/
theorem c9_gated_out_passthrough (cfg : Config) (ctx : Context)
    (nextErr : Option GoError)
    (h : skipperOf cfg ctx = true ∨ ctx.requestBody.isSome = true ∨
         ctvOf cfg ctx = false ∨ validMethods.contains ctx.method = false) :
    runHandler cfg ctx nextErr = ⟨nextErr, ctx, true, false⟩ := by
  have hg : gatedOut cfg ctx = true := by
    unfold gatedOut
    rcases h with h | h | h | h
    · simp [h]
    · simp [h]
    · simp [h]
    · have hm : ctx.method ∉ validMethods := by simpa using h
      simp [hm]
  unfold runHandler
  rw [if_pos hg]

/-- C9 witness: a GET request with a JSON content type and a pending body
stream passes through untouched, with no read performed. -/
theorem c9_witness :
    runHandler zeroLimitConfig getMethodContext none =
      ⟨none, getMethodContext, true, false⟩ :=
  c9_gated_out_passthrough zeroLimitConfig getMethodContext none
    (Or.inr (Or.inr (Or.inr (by decide))))

/-- C5: the JSON structural decoder trims surrounding whitespace; an empty
trimmed body yields empty (nil) output with no error; a non-empty trimmed
body succeeds with exactly the trimmed bytes precisely when the first byte
is a left brace closed by a right brace or a left bracket closed by a right
bracket, and any mismatch fails with the fixed errInvalidJSON, which is a
status-400, non-exceptional error of the package category with message
invalid json format. -/
theorem c5_json_structural_check (ctx : Context) (data : List Nat) :
    (trimSpace data = [] → jsonDecodeFn ctx data = (ctx, none, none)) ∧
    (∀ t, trimSpace data = t → t ≠ [] →
      (((t.headD 0 = 123 ∧ t.getLastD 0 = 125) ∨
        (t.headD 0 = 91 ∧ t.getLastD 0 = 93)) →
        jsonDecodeFn ctx data = (ctx, some t, none)) ∧
      (¬((t.headD 0 = 123 ∧ t.getLastD 0 = 125) ∨
         (t.headD 0 = 91 ∧ t.getLastD 0 = 93)) →
        jsonDecodeFn ctx data = (ctx, none, some errInvalidJSON))) ∧
    errInvalidJSON = .hes 400 errCategory "invalid json format" false := by
  refine ⟨?_, ?_, rfl⟩
  · intro h
    simp [jsonDecodeFn, h]
  · intro t ht hne
    have hlen : ¬ t.length = 0 := by
      simpa [List.length_eq_zero] using hne
    constructor
    · intro hok
      by_cases hf : t.headD 0 = 123 <;> by_cases hg : t.headD 0 = 91 <;>
        by_cases hl : t.getLastD 0 = 125 <;> by_cases hm : t.getLastD 0 = 93 <;>
        simp_all [jsonDecodeFn]
    · intro hbad
      by_cases hf : t.headD 0 = 123 <;> by_cases hg : t.headD 0 = 91 <;>
        by_cases hl : t.getLastD 0 = 125 <;> by_cases hm : t.getLastD 0 = 93 <;>
        simp_all [jsonDecodeFn]

/-- C5 witness: a tight JSON object body passes unchanged, and the four-byte
body abcd fails with the invalid-json error. -/
theorem c5_witness :
    jsonDecodeFn abcdJSONContext [123, 34, 97, 34, 58, 49, 125] =
      (abcdJSONContext, some [123, 34, 97, 34, 58, 49, 125], none) ∧
    jsonDecodeFn abcdJSONContext (strBytes "abcd") =
      (abcdJSONContext, none, some errInvalidJSON) :=
  ⟨(((c5_json_structural_check abcdJSONContext [123, 34, 97, 34, 58, 49, 125]).2.1
      [123, 34, 97, 34, 58, 49, 125] (by decide) (by decide)).1 (by decide)),
   (((c5_json_structural_check abcdJSONContext (strBytes "abcd")).2.1
      (strBytes "abcd") (by decide) (by decide)).2 (by decide))⟩

/-- C6: when a read on the bounded reader makes the underlying stream
produce more bytes than the remaining budget, the reader hands back only
the bytes up to the budget together with the body-too-large error, latches
that error and collapses the budget to zero; and from any latched state,
every subsequent read returns the same error unchanged without consulting
the underlying stream. -/
theorem c6_bounded_reader_sticky (n plen : Nat)
    (under : Nat → List Nat × Option GoError) (hp : ¬ plen = 0)
    (hover : ¬ ((under (if plen > n + 1 then n + 1 else plen)).1).length ≤ n) :
    mbrRead ⟨n, none⟩ plen under =
      (((under (if plen > n + 1 then n + 1 else plen)).1).take n,
       some (tooLargeErr n), ⟨0, some (tooLargeErr n)⟩, true) ∧
    (∀ (m : Nat) (e : GoError) (plen' : Nat)
       (under' : Nat → List Nat × Option GoError),
      mbrRead ⟨m, some e⟩ plen' under' = ([], some e, ⟨m, some e⟩, false)) := by
  constructor
  · unfold mbrRead
    simp only [hp, if_false, if_neg hover]
  · intro m e plen' under'
    rfl

/-- C6 witness: with one byte of remaining budget and a two-byte producing
stream, the read returns the first byte and the sticky error, and a
follow-up read from the latched state returns the same error untouched. -/
theorem c6_witness :
    mbrRead ⟨1, none⟩ 512 (fun cap => ([97, 98].take cap, none)) =
      ([97], some (tooLargeErr 1), ⟨0, some (tooLargeErr 1)⟩, true) ∧
    mbrRead ⟨0, some (tooLargeErr 1)⟩ 512 (fun cap => ([97, 98].take cap, none)) =
      ([], some (tooLargeErr 1), ⟨0, some (tooLargeErr 1)⟩, false) := by
  have h := c6_bounded_reader_sticky 1 512
    (fun cap => ([97, 98].take cap, none)) (by decide) (by decide)
  exact ⟨h.1, h.2 0 (tooLargeErr 1) 512 (fun cap => ([97, 98].take cap, none))⟩

/-- C10: the gzip transform clears the Content-Encoding request header
before decompressing, so on every input — valid or not — the returned
context has the header removed; in particular on any input that gunzip
rejects the transform returns the error while the header stays cleared. -/
theorem c10_gzip_clears_header_even_on_failure (ctx : Context) (data : List Nat) :
    (gzipDecodeFn ctx data).1 = setHeader ctx "Content-Encoding" [] ∧
    getHeader (gzipDecodeFn ctx data).1 "Content-Encoding" = [] ∧
    (∀ e, (gunzip data).2 = some e →
      gzipDecodeFn ctx data =
        (setHeader ctx "Content-Encoding" [], (gunzip data).1, some e)) := by
  refine ⟨rfl, ?_, ?_⟩
  · show getHeader (setHeader ctx "Content-Encoding" []) "Content-Encoding" = []
    unfold getHeader setHeader
    simp only [if_pos rfl]
    have : (ctx.headers.filter (fun p => p.1 != "Content-Encoding")).find?
        (fun p => p.1 = "Content-Encoding") = none := by
      rw [List.find?_eq_none]
      intro p hp
      have := List.of_mem_filter hp
      simp_all
    simp [this]
  · intro e he
    unfold gzipDecodeFn
    simp only []
    rw [he]

/-- C10 witness: a three-byte non-gzip body fails to decompress and still
comes back with the Content-Encoding header cleared. -/
theorem c10_witness :
    gzipDecodeFn abcJSONContext [1, 2, 3] =
      (setHeader abcJSONContext "Content-Encoding" [], none,
       some (.plain "unexpected EOF")) :=
  (c10_gzip_clears_header_even_on_failure abcJSONContext [1, 2, 3]).2.2
    (.plain "unexpected EOF") rfl

end BodyParser
